import Mathlib

/-!
Verification development for the ReelAI video-processing pipeline.

The definitions below are shallow embeddings of the Python sources:
  - functions/python/thumbnail_generator/thumbnail_generator/video.py
  - functions/python/thumbnail_generator/main.py
  - functions/python/hashtag_generator/hashtag_generator/hashtag_generator.py
  - functions/python/image_analyzer/image_analyzer/analyzer.py
  - functions/main.py
Pure functions become Lean functions; the stateful pipeline becomes explicit
state passing over a state record; Python exceptions become Except values;
external collaborators (blob store, HTTP, Firestore, the OpenAI API) are
oracles supplied through an environment record.
-/

namespace ReelAI

/-! ## Path resolution

Embedding of VideoProcessor.get_possible_paths (video.py lines 89-120) and
get_possible_video_paths (thumbnail_generator/main.py lines 348-413).
-/

/-- Fields of the video record consulted by the path resolver.  Python's
falsy test on a present-but-empty string is kept: `some ""` behaves like
`none`. -/
structure VideoData where
  storagePath : Option String
  storageUrl  : Option String
deriving Repr, DecidableEq

/-- Python `s.split(c)` on a single-character separator, keeping empty
fields, defined structurally on the character list so it evaluates in the
kernel (the core String.splitOn uses well-founded recursion). -/
def splitChar (sep : Char) : List Char → List (List Char)
  | [] => [[]]
  | c :: rest =>
      match splitChar sep rest with
      | [] => if c = sep then [[], []] else [[c]]
      | h :: t => if c = sep then [] :: h :: t else (c :: h) :: t

/-- Python `s.startswith(pre)`. -/
def pyStartsWith (s pre : String) : Bool :=
  List.isPrefixOf pre.data s.data

/-- Python `s.endswith(suf)`. -/
def pyEndsWith (s suf : String) : Bool :=
  List.isSuffixOf suf.data s.data

/-- Python `s[:-n]` for `n ≤ len(s)` (used as `path[:-4]`). -/
def pyDropRight (s : String) (n : Nat) : String :=
  String.mk (s.data.take (s.data.length - n))

/-- Python `'/'.join(url.split('/')[3:])`: the object path of a gs:// URL. -/
def gsUrlPath (url : String) : String :=
  String.mk (List.intercalate ['/'] ((splitChar '/' url.data).drop 3))

/-- Python `url.split('/')` index 2: the bucket of a gs:// URL. -/
def gsUrlBucket (url : String) : String :=
  String.mk (((splitChar '/' url.data).drop 2).headD [])

/-- Everything after the first occurrence of the two-character separator
`c1 c2`, or `none` when it does not occur.  Covers both Python idioms
`'o/' in url` (via `isSome`) and `url.split('o/', 1)[-1]`. -/
def afterSeg2 (c1 c2 : Char) : List Char → Option (List Char)
  | [] => none
  | [_] => none
  | a :: b :: rest =>
      if a = c1 ∧ b = c2 then some rest else afterSeg2 c1 c2 (b :: rest)

/-- Python `s.split('?')[0]`: the part of `s` before the first `?`. -/
def beforeQuery (l : List Char) : List Char :=
  (splitChar '?' l).headD l

/-- Python `unquote(url.split('o/', 1)[-1].split('?')[0])`: the object path
extracted from an https download URL.  URL percent-decoding (`unquote`, a
Python standard-library call) is passed in as the oracle `uq`. -/
def httpsObjectPath (uq : String → String) (url : String) : String :=
  uq (String.mk (beforeQuery ((afterSeg2 'o' '/' url.data).getD url.data)))

/-- The `standard_paths` list both resolver copies build from the video id. -/
def standardPaths (videoId : String) : List String :=
  ["videos/" ++ videoId ++ ".mp4",
   "videos/" ++ videoId,
   "raw/" ++ videoId ++ ".mp4",
   "raw/" ++ videoId,
   videoId ++ ".mp4",
   videoId]

/-- Python `possible_paths.extend(p for p in news if p not in possible_paths)`
(and the equivalent explicit loop in main.py): appends each element of `news`
not already present, consulting the list as it grows. -/
def appendNew (acc news : List String) : List String :=
  news.foldl (fun a p => if p ∈ a then a else a ++ [p]) acc

/-- Embedding of `VideoProcessor.get_possible_paths` (video.py lines 89-120).
Steps 1 and 2 append storagePath-derived and storageUrl-derived candidates
with no de-duplication between them; step 3 appends the standard paths that
are not yet present.  There is no final de-duplication pass in this copy. -/
def get_possible_paths (uq : String → String) (videoId : String)
    (vd : VideoData) : List String :=
  let base1 : List String :=
    match vd.storagePath with
    | some sp =>
        if sp = "" then []
        else if pyEndsWith sp ".mp4" then [sp, pyDropRight sp 4] else [sp]
    | none => []
  let base2 : List String :=
    match vd.storageUrl with
    | some url =>
        if url = "" then []
        else if pyStartsWith url "gs://" then [gsUrlPath url]
        else if pyStartsWith url "https://" &&
            (afterSeg2 'o' '/' url.data).isSome then
          [httpsObjectPath uq url]
        else []
    | none => []
  appendNew (base1 ++ base2) (standardPaths videoId)

/-- Python `if path and path not in unique_paths: unique_paths.append(path)`
over the whole candidate list (main.py lines 403-407): drops empty strings
and keeps the first occurrence of each value. -/
def dedupDropEmpty (paths : List String) : List String :=
  paths.foldl (fun a p => if p ≠ "" ∧ p ∉ a then a ++ [p] else a) []

/-- Embedding of `get_possible_video_paths` (thumbnail_generator/main.py
lines 348-413).  Steps 1-3 are identical to `get_possible_paths`; this copy
then runs the final de-duplication pass of lines 403-407. -/
def get_possible_video_paths (uq : String → String) (videoId : String)
    (vd : VideoData) : List String :=
  dedupDropEmpty (get_possible_paths uq videoId vd)

/-! Helper lemmas about the final de-duplication pass. -/

/-- Internal fold of `dedupDropEmpty`, exposed for induction. -/
def dedupGo (acc : List String) (l : List String) : List String :=
  l.foldl (fun a p => if p ≠ "" ∧ p ∉ a then a ++ [p] else a) acc

theorem dedupDropEmpty_eq_go (l : List String) :
    dedupDropEmpty l = dedupGo [] l := rfl

/-- Main structural lemma: the fold appends to `acc` a suffix `t` that is a
sublist of `l`, contains no empty string, no element of `acc`, no duplicate,
respects the order of first occurrences in `l`, and together with `acc`
covers every non-empty element of `l`. -/
theorem dedupGo_spec (l : List String) : ∀ acc : List String,
    ∃ t, dedupGo acc l = acc ++ t ∧
      t.Sublist l ∧
      (∀ b ∈ t, b ∉ acc ∧ b ≠ "") ∧
      t.Pairwise (fun a b => l.indexOf a < l.indexOf b) ∧
      (∀ s ∈ l, s ≠ "" → s ∈ acc ∨ s ∈ t) ∧
      t.Nodup := by
  induction l with
  | nil =>
      intro acc
      exact ⟨[], by simp [dedupGo], by simp, by simp, by simp, by simp, by simp⟩
  | cons p l ih =>
      intro acc
      by_cases hc : p ≠ "" ∧ p ∉ acc
      · obtain ⟨t, ht, hsub, hnotin, hpw, hmem, hnd⟩ := ih (acc ++ [p])
        have hstep : dedupGo acc (p :: l) = dedupGo (acc ++ [p]) l := by
          simp [dedupGo, List.foldl_cons, if_pos hc]
        refine ⟨p :: t, ?_, ?_, ?_, ?_, ?_, ?_⟩
        · rw [hstep, ht]; simp
        · exact List.Sublist.cons₂ p hsub
        · intro b hb
          rcases List.mem_cons.mp hb with hb | hb
          · subst hb; exact ⟨hc.2, hc.1⟩
          · have := hnotin b hb
            constructor
            · intro hbacc; exact this.1 (by simp [hbacc])
            · exact this.2
        · refine List.pairwise_cons.mpr ⟨?_, ?_⟩
          · intro b hb
            have hbne : p ≠ b := fun h => (hnotin b hb).1 (by simp [← h])
            rw [List.indexOf_cons_self]
            rw [List.indexOf_cons_ne _ hbne]
            exact Nat.succ_pos _
          · refine List.Pairwise.imp_of_mem ?_ hpw
            intro a b ha hb hab
            have hane : p ≠ a := fun h => (hnotin a ha).1 (by simp [← h])
            have hbne : p ≠ b := fun h => (hnotin b hb).1 (by simp [← h])
            rw [List.indexOf_cons_ne _ hane, List.indexOf_cons_ne _ hbne]
            exact Nat.succ_lt_succ hab
        · intro s hs hsne
          rcases List.mem_cons.mp hs with hs | hs
          · subst hs; right; exact List.mem_cons_self _ _
          · rcases hmem s hs hsne with h | h
            · rcases List.mem_append.mp h with h | h
              · left; exact h
              · right; simp at h; subst h; exact List.mem_cons_self _ _
            · right; exact List.mem_cons_of_mem _ h
        · refine List.nodup_cons.mpr ⟨?_, hnd⟩
          intro hpt
          exact (hnotin p hpt).1 (by simp)
      · obtain ⟨t, ht, hsub, hnotin, hpw, hmem, hnd⟩ := ih acc
        have hstep : dedupGo acc (p :: l) = dedupGo acc l := by
          simp [dedupGo, List.foldl_cons, if_neg hc]
        have hcases : p = "" ∨ p ∈ acc := by
          by_contra h
          push_neg at h
          exact hc ⟨h.1, h.2⟩
        have hpnott : p ∉ t := by
          intro hpt
          rcases hcases with h | h
          · exact (hnotin p hpt).2 h
          · exact (hnotin p hpt).1 h
        refine ⟨t, ?_, ?_, hnotin, ?_, ?_, hnd⟩
        · rw [hstep, ht]
        · exact hsub.trans (List.sublist_cons_self p l)
        · refine List.Pairwise.imp_of_mem ?_ hpw
          intro a b ha hb hab
          have hane : p ≠ a := fun h => hpnott (h ▸ ha)
          have hbne : p ≠ b := fun h => hpnott (h ▸ hb)
          rw [List.indexOf_cons_ne _ hane, List.indexOf_cons_ne _ hbne]
          exact Nat.succ_lt_succ hab
        · intro s hs hsne
          rcases List.mem_cons.mp hs with hs | hs
          · subst hs
            rcases hcases with h | h
            · exact absurd h hsne
            · left; exact h
          · exact hmem s hs hsne

/-- C3: For every record, the Path Resolver's output candidate list contains
no duplicate entries and no empty or None entries, and preserves original
insertion order among first-seen values.  AMENDED: this holds for the
`get_possible_video_paths` copy (main.py), which ends with a de-duplication
pass; the `VideoProcessor.get_possible_paths` copy (video.py) has no such
pass and can emit duplicates (see the counterexample).  The amended claim
proved here: the main.py resolver output is duplicate-free, contains no
empty entry, is a sublist of the raw candidate sequence, contains every
non-empty raw candidate, and lists values in the order of their first
occurrence in the raw sequence. -/
theorem c3_resolver_output_invariant (uq : String → String) (videoId : String)
    (vd : VideoData) :
    (get_possible_video_paths uq videoId vd).Nodup ∧
    (∀ s ∈ get_possible_video_paths uq videoId vd, s ≠ "") ∧
    (get_possible_video_paths uq videoId vd).Sublist
      (get_possible_paths uq videoId vd) ∧
    (∀ s ∈ get_possible_paths uq videoId vd, s ≠ "" →
      s ∈ get_possible_video_paths uq videoId vd) ∧
    (get_possible_video_paths uq videoId vd).Pairwise
      (fun a b => (get_possible_paths uq videoId vd).indexOf a <
        (get_possible_paths uq videoId vd).indexOf b) := by
  obtain ⟨t, ht, hsub, hnotin, hpw, hmem, hnd⟩ :=
    dedupGo_spec (get_possible_paths uq videoId vd) []
  have heq : get_possible_video_paths uq videoId vd = t := by
    rw [get_possible_video_paths, dedupDropEmpty_eq_go, ht]; simp
  refine ⟨?_, ?_, ?_, ?_, ?_⟩
  · rw [heq]; exact hnd
  · rw [heq]; intro s hs; exact (hnotin s hs).2
  · rw [heq]; exact hsub
  · intro s hs hsne
    rw [heq]
    rcases hmem s hs hsne with h | h
    · simp at h
    · exact h
  · rw [heq]; exact hpw

/-- C3 witness: the invariant instantiated on a concrete record whose raw
candidate sequence contains a duplicate and whose non-empty raw candidate
"videos/x.mp4" is kept in the de-duplicated output. -/
theorem c3_resolver_witness :
    (get_possible_video_paths (fun s => s) "x"
      ⟨some "videos/x.mp4", some "gs://bucket/videos/x.mp4"⟩).Nodup ∧
    "videos/x.mp4" ∈ get_possible_video_paths (fun s => s) "x"
      ⟨some "videos/x.mp4", some "gs://bucket/videos/x.mp4"⟩ :=
  ⟨(c3_resolver_output_invariant (fun s => s) "x"
      ⟨some "videos/x.mp4", some "gs://bucket/videos/x.mp4"⟩).1,
   (c3_resolver_output_invariant (fun s => s) "x"
      ⟨some "videos/x.mp4", some "gs://bucket/videos/x.mp4"⟩).2.2.2.1
     "videos/x.mp4" (by decide) (by decide)⟩

/-- C3 counterexample: the claim is false for the `VideoProcessor` copy of
the resolver.  A record whose storageUrl repeats its storagePath yields the
candidate "videos/x.mp4" twice: the output has duplicates. -/
theorem c3_counterexample :
    ¬ (get_possible_paths (fun s => s) "x"
        ⟨some "videos/x.mp4", some "gs://bucket/videos/x.mp4"⟩).Nodup := by
  decide

/-- C4: For every VideoRecord with only storagePath = "videos/x.mp4" set
(identifier "x"), the Path Resolver's output begins with
["videos/x.mp4", "videos/x"], followed by the fixed fallback list built from
the identifier, with no duplicates.  Both resolver copies return exactly the
storagePath, the extension-stripped storagePath, and then the fallback
entries not already present, and the result has no duplicates. -/
theorem c4_storage_path_candidates (uq : String → String) :
    get_possible_paths uq "x" ⟨some "videos/x.mp4", none⟩ =
      ["videos/x.mp4", "videos/x", "raw/x.mp4", "raw/x", "x.mp4", "x"] ∧
    get_possible_video_paths uq "x" ⟨some "videos/x.mp4", none⟩ =
      ["videos/x.mp4", "videos/x", "raw/x.mp4", "raw/x", "x.mp4", "x"] ∧
    (["videos/x.mp4", "videos/x", "raw/x.mp4", "raw/x", "x.mp4",
      "x"] : List String).Nodup := by
  refine ⟨rfl, rfl, by decide⟩

/-! ## IEEE-754 binary64 arithmetic

The resize and frame-index computations in the source run on Python
floats, i.e. IEEE-754 binary64 values.  A finite double is a dyadic
rational ±mag·2^exp with a 53-bit significand; `roundDyadic` and
`fdivNat` implement round to nearest, ties to even, which is exactly the
rounding Python applies to `*` and `/`.  Everything is structural ℕ/ℤ
arithmetic so that concrete runs evaluate in the kernel. -/

/-- Number of binary digits of the second argument (0 for 0); the first
argument is recursion fuel, sufficient whenever it is at least the
number. -/
def bitlenGo : ℕ → ℕ → ℕ
  | 0, _ => 0
  | fuel + 1, m => if m = 0 then 0 else bitlenGo fuel (m / 2) + 1

/-- Number of binary digits of `n` (0 for 0). -/
def bitlen (n : ℕ) : ℕ := bitlenGo n n

theorem bitlenGo_zero (fuel : ℕ) : bitlenGo fuel 0 = 0 := by
  cases fuel <;> simp [bitlenGo]

theorem bitlenGo_spec : ∀ fuel m : ℕ, 1 ≤ m → m ≤ fuel →
    2 ^ (bitlenGo fuel m - 1) ≤ m ∧ m < 2 ^ bitlenGo fuel m := by
  intro fuel
  induction fuel with
  | zero => intro m h1 h2; omega
  | succ fuel ih =>
      intro m h1 h2
      rw [bitlenGo, if_neg (by omega : ¬ m = 0)]
      by_cases hm : m = 1
      · subst hm
        rw [show (1:ℕ) / 2 = 0 from rfl, bitlenGo_zero]
        norm_num
      · have hrec : 1 ≤ m / 2 := by omega
        have hfuel : m / 2 ≤ fuel := by omega
        obtain ⟨hlo, hhi⟩ := ih (m / 2) hrec hfuel
        have hg1 : 1 ≤ bitlenGo fuel (m / 2) := by
          by_contra h
          have h0 : bitlenGo fuel (m / 2) = 0 := by omega
          rw [h0] at hhi
          simp at hhi
          omega
        obtain ⟨g0, hg⟩ : ∃ g0, bitlenGo fuel (m / 2) = g0 + 1 :=
          ⟨bitlenGo fuel (m / 2) - 1, by omega⟩
        rw [hg] at hlo hhi ⊢
        simp only [Nat.add_sub_cancel] at hlo ⊢
        have e1 : (2:ℕ) ^ (g0 + 1) = 2 * 2 ^ g0 := by ring
        have e2 : (2:ℕ) ^ (g0 + 1 + 1) = 4 * 2 ^ g0 := by ring
        rw [e1] at hhi
        constructor
        · rw [e1]; omega
        · rw [e2]; omega

theorem bitlen_spec (n : ℕ) (h : 1 ≤ n) :
    2 ^ (bitlen n - 1) ≤ n ∧ n < 2 ^ bitlen n :=
  bitlenGo_spec n n h le_rfl

theorem bitlen_le (n c : ℕ) (h1 : 1 ≤ n) (h : n < 2 ^ c) : bitlen n ≤ c := by
  obtain ⟨hlo, _⟩ := bitlen_spec n h1
  by_contra hc
  push_neg at hc
  have : (2:ℕ) ^ c ≤ 2 ^ (bitlen n - 1) :=
    Nat.pow_le_pow_right (by norm_num) (by omega)
  omega

/-- A finite binary64 datum, as the dyadic rational ±mag·2^exp. -/
structure F64 where
  neg : Bool
  mag : ℕ
  exp : ℤ
deriving DecidableEq

/-- Round `m / 2^k` to the nearest integer, ties to even. -/
def roundMag (m k : ℕ) : ℕ :=
  if k = 0 then m
  else
    let q := m / 2 ^ k
    let r := m % 2 ^ k
    let half := 2 ^ (k - 1)
    if r < half then q
    else if half < r then q + 1
    else if q % 2 = 0 then q else q + 1

/-- Round the dyadic `m·2^e` to a 53-bit significand (nearest, ties to
even): the IEEE rounding step after an exact product. -/
def roundDyadic (m : ℕ) (e : ℤ) : ℕ × ℤ :=
  if m ≤ 2 ^ 53 then (m, e)
  else
    let k := bitlen m - 53
    (roundMag m k, e + k)

/-- Binary64 multiplication: exact product of the dyadics, then one
rounding. -/
def fmul (a b : F64) : F64 :=
  let r := roundDyadic (a.mag * b.mag) (a.exp + b.exp)
  ⟨xor a.neg b.neg, r.1, r.2⟩

/-- Python int-to-float conversion (exact below 2^53, rounded above). -/
def floatOfNat (n : ℕ) : F64 :=
  let r := roundDyadic n 0
  ⟨false, r.1, r.2⟩

/-- Final rounding step of a division: round `num/den` — which the callers
arrange to lie in [2^52, 2^53) — to the nearest integer, ties to even; the
value is that significand times 2^e. -/
def fdivFinish (num den : ℕ) (e : ℤ) : F64 :=
  let q := num / den
  let r := num % den
  let m := if 2 * r < den then q
    else if den < 2 * r then q + 1
    else if q % 2 = 0 then q else q + 1
  ⟨false, m, e⟩

/-- Binary64 division of two non-negative integers: scale `a/b` by a power
of two into the binade [2^52, 2^53), then round to nearest, ties to even.
This is the correctly rounded IEEE quotient, hence Python `a / b` on ints
(checked against CPython on the inputs used here and a large random
sample). -/
def fdivNat (a b : ℕ) : F64 :=
  if a = 0 ∨ b = 0 then ⟨false, 0, 0⟩
  else
    let la := bitlen a
    let lb := bitlen b
    if la ≤ 53 + lb then
      let s := 53 + lb - la
      if 2 ^ 53 * b ≤ a * 2 ^ s then
        if s = 0 then fdivFinish a (2 * b) 1
        else fdivFinish (a * 2 ^ (s - 1)) b (-((s:ℤ) - 1))
      else fdivFinish (a * 2 ^ s) b (-(s:ℤ))
    else
      let s := la - (53 + lb)
      if 2 ^ 53 * (b * 2 ^ s) ≤ a then fdivFinish a (b * 2 ^ (s + 1)) ((s:ℤ) + 1)
      else fdivFinish a (b * 2 ^ s) (s:ℤ)

/-- Python `int(x)` on a float: truncation toward zero. -/
def truncF (x : F64) : ℤ :=
  let n : ℕ :=
    if 0 ≤ x.exp then x.mag * 2 ^ x.exp.toNat
    else x.mag / 2 ^ (-x.exp).toNat
  if x.neg then -(n : ℤ) else (n : ℤ)

/-! ## Frame downscaling

Embedding of `resize_image` (hashtag_generator.py lines 26-34 and
analyzer.py lines 24-32; the two copies are textually identical).  Only the
dimension computation is modelled; `scale = MAX_IMAGE_SIZE / max(h, w)` and
`int(d * scale)` are computed in binary64 like the Python source. -/

def MAX_IMAGE_SIZE : ℕ := 384

/-- Dimension part of `resize_image`: the guard is
`height > MAX_IMAGE_SIZE or width > MAX_IMAGE_SIZE`; the scale is the
double 384 / max(h, w); each new dimension is the truncation of the double
product `d * scale`. -/
def resize_image_dims (height width : ℕ) : ℕ × ℕ :=
  if MAX_IMAGE_SIZE < height ∨ MAX_IMAGE_SIZE < width then
    let scale := fdivNat MAX_IMAGE_SIZE (max height width)
    ((truncF (fmul (floatOfNat height) scale)).toNat,
     (truncF (fmul (floatOfNat width) scale)).toNat)
  else (height, width)

/-- Modelled from the spec wording, for comparison only: scale both
dimensions by bound / max(height, width) in exact real arithmetic,
rounding each scaled dimension to the NEAREST integer (here with halves
up; the counterexample input is not a half, so the half convention does
not matter). -/
def specRoundedDims (bound height width : ℕ) : ℕ × ℕ :=
  if bound < max height width then
    ((2 * (height * bound) + max height width) / (2 * max height width),
     (2 * (width * bound) + max height width) / (2 * max height width))
  else (height, width)

theorem roundMag_mul_le (m k : ℕ) : roundMag m k * 2 ^ k ≤ m + 2 ^ k := by
  have hq : m / 2 ^ k * 2 ^ k ≤ m := Nat.div_mul_le_self _ _
  rw [roundMag]
  dsimp only
  split_ifs with hk h1 h2 h3
  · subst hk
    simp
  · exact le_trans hq (Nat.le_add_right _ _)
  · rw [add_mul, one_mul]
    exact Nat.add_le_add_right hq _
  · exact le_trans hq (Nat.le_add_right _ _)
  · rw [add_mul, one_mul]
    exact Nat.add_le_add_right hq _

theorem fdivFinish_neg (num den : ℕ) (e : ℤ) :
    (fdivFinish num den e).neg = false := rfl

theorem fdivFinish_exp (num den : ℕ) (e : ℤ) :
    (fdivFinish num den e).exp = e := rfl

theorem fdivFinish_mag_mul_le (num den : ℕ) (e : ℤ) :
    (fdivFinish num den e).mag * den ≤ num + den := by
  have hq : num / den * den ≤ num := Nat.div_mul_le_self _ _
  rw [fdivFinish]
  dsimp only
  split_ifs with h1 h2 h3
  · exact le_trans hq (Nat.le_add_right _ _)
  · rw [add_mul, one_mul]
    exact Nat.add_le_add_right hq _
  · exact le_trans hq (Nat.le_add_right _ _)
  · rw [add_mul, one_mul]
    exact Nat.add_le_add_right hq _

theorem fdivFinish_mag_le (num den : ℕ) (e : ℤ) :
    (fdivFinish num den e).mag ≤ num + 1 := by
  have hq : num / den ≤ num := Nat.div_le_self _ _
  rw [fdivFinish]
  dsimp only
  split_ifs <;> omega

/-- Shape of the scale double 384 / m for frame-sized m: significand times
2^(-t) for some t between 52 and 65, with the significand bounded by the
scaled quotient. -/
theorem fdivNat_384_props (m : ℕ) (hm1 : 385 ≤ m) (hm2 : m ≤ 2 ^ 20) :
    ∃ t : ℕ, 52 ≤ t ∧ t ≤ 65 ∧
      (fdivNat 384 m).neg = false ∧
      (fdivNat 384 m).exp = -(t : ℤ) ∧
      (fdivNat 384 m).mag * m ≤ 384 * 2 ^ t + m ∧
      (fdivNat 384 m).mag ≤ 384 * 2 ^ t + 1 := by
  have hm0 : ¬ ((384:ℕ) = 0 ∨ m = 0) := by omega
  have hbl384 : bitlen 384 = 9 := by decide
  obtain ⟨hmlo, hmhi⟩ := bitlen_spec m (by omega)
  have hlb9 : 9 ≤ bitlen m := by
    by_contra h
    push_neg at h
    have hp : (2:ℕ) ^ bitlen m ≤ 2 ^ 8 :=
      Nat.pow_le_pow_right (by norm_num) (by omega)
    have h8 : (2:ℕ) ^ 8 = 256 := by norm_num
    omega
  have hlb21 : bitlen m ≤ 21 := by
    have h20 : (2:ℕ) ^ (bitlen m - 1) ≤ 2 ^ 20 := le_trans hmlo hm2
    have := (Nat.pow_le_pow_iff_right (by norm_num : 1 < 2)).mp h20
    omega
  rw [fdivNat, if_neg hm0]
  simp only [hbl384]
  rw [if_pos (by omega : (9:ℕ) ≤ 53 + bitlen m)]
  by_cases hadj : 2 ^ 53 * m ≤ 384 * 2 ^ (53 + bitlen m - 9)
  · rw [if_pos hadj, if_neg (by omega : ¬ (53 + bitlen m - 9 = 0))]
    refine ⟨53 + bitlen m - 9 - 1, by omega, by omega,
      fdivFinish_neg _ _ _, ?_, ?_, ?_⟩
    · rw [fdivFinish_exp]
      omega
    · exact fdivFinish_mag_mul_le _ _ _
    · have := fdivFinish_mag_le (384 * 2 ^ (53 + bitlen m - 9 - 1)) m
        (-((53 + bitlen m - 9 : ℕ) - 1 : ℤ))
      omega
  · rw [if_neg hadj]
    refine ⟨53 + bitlen m - 9, by omega, by omega,
      fdivFinish_neg _ _ _, ?_, ?_, ?_⟩
    · rw [fdivFinish_exp]
    · exact fdivFinish_mag_mul_le _ _ _
    · have := fdivFinish_mag_le (384 * 2 ^ (53 + bitlen m - 9)) m
        (-(53 + bitlen m - 9 : ℕ) : ℤ)
      omega

/-- Core inequality for never-upscaling: a significand bounded by the
scaled quotient, rounded and shifted back down, stays at most d. -/
theorem chain_div_le (d m t k ms m2 : ℕ)
    (hm : 384 ≤ m) (hkt : k < t)
    (hdk : d + 2 ^ k < 2 ^ t)
    (hms : ms * m ≤ 384 * 2 ^ t + m)
    (hm2 : m2 * 2 ^ k ≤ d * ms + 2 ^ k) :
    m2 / 2 ^ (t - k) ≤ d := by
  have hmpos : 0 < m := by omega
  have hA : (2:ℕ) ^ (t - k) * 2 ^ k = 2 ^ t := by
    rw [← pow_add]
    congr 1
    omega
  have hR : m2 / 2 ^ (t - k) * 2 ^ (t - k) ≤ m2 := Nat.div_mul_le_self _ _
  have key : m2 / 2 ^ (t - k) * (2 ^ t * m) ≤
      384 * d * 2 ^ t + (d + 2 ^ k) * m := by
    calc m2 / 2 ^ (t - k) * (2 ^ t * m)
        = m2 / 2 ^ (t - k) * 2 ^ (t - k) * 2 ^ k * m := by rw [← hA]; ring
      _ ≤ m2 * 2 ^ k * m := by gcongr
      _ ≤ (d * ms + 2 ^ k) * m := by gcongr
      _ = d * (ms * m) + 2 ^ k * m := by ring
      _ ≤ d * (384 * 2 ^ t + m) + 2 ^ k * m := by gcongr
      _ = 384 * d * 2 ^ t + (d + 2 ^ k) * m := by ring
  have key2 : 384 * d * 2 ^ t + (d + 2 ^ k) * m < (d + 1) * (2 ^ t * m) := by
    have c1 : 384 * d * 2 ^ t ≤ d * 2 ^ t * m := by
      calc 384 * d * 2 ^ t = d * 2 ^ t * 384 := by ring
        _ ≤ d * 2 ^ t * m := by gcongr
    have c2 : (d + 2 ^ k) * m < 2 ^ t * m := by
      exact (mul_lt_mul_right hmpos).mpr hdk
    calc 384 * d * 2 ^ t + (d + 2 ^ k) * m
        ≤ d * 2 ^ t * m + (d + 2 ^ k) * m := Nat.add_le_add_right c1 _
      _ < d * 2 ^ t * m + 2 ^ t * m := Nat.add_lt_add_left c2 _
      _ = (d + 1) * (2 ^ t * m) := by ring
  have hfin := lt_of_le_of_lt key key2
  have := lt_of_mul_lt_mul_right hfin (Nat.zero_le _)
  omega

/-- In-range dimensions scaled through the binary64 pipeline never grow:
int(d * (384/m)) ≤ d for 385 ≤ m and frame-sized inputs. -/
theorem trunc_scaled_le (d m : ℕ) (hd : d ≤ 2 ^ 20)
    (hm1 : 385 ≤ m) (hm2 : m ≤ 2 ^ 20) :
    (truncF (fmul (floatOfNat d) (fdivNat 384 m))).toNat ≤ d := by
  obtain ⟨t, ht52, ht65, hneg, hexp, hmagm, hmagb⟩ := fdivNat_384_props m hm1 hm2
  have hd53 : d ≤ 2 ^ 53 := by
    have : (2:ℕ) ^ 20 ≤ 2 ^ 53 := Nat.pow_le_pow_right (by norm_num) (by norm_num)
    omega
  have hdF : floatOfNat d = ⟨false, d, 0⟩ := by
    rw [floatOfNat, roundDyadic, if_pos hd53]
  rw [hdF]
  have hpow0 : (2:ℕ) ^ 0 = 1 := by norm_num
  have h52t : (2:ℕ) ^ 52 ≤ 2 ^ t := Nat.pow_le_pow_right (by norm_num) ht52
  have h2052 : (2:ℕ) ^ 20 < 2 ^ 52 := Nat.pow_lt_pow_right (by norm_num) (by norm_num)
  have hmul : fmul ⟨false, d, 0⟩ (fdivNat 384 m) =
      ⟨false, (roundDyadic (d * (fdivNat 384 m).mag) (-(t:ℤ))).1,
       (roundDyadic (d * (fdivNat 384 m).mag) (-(t:ℤ))).2⟩ := by
    rw [fmul, hneg, hexp]
    simp
  rw [hmul]
  by_cases hP : d * (fdivNat 384 m).mag ≤ 2 ^ 53
  · have hro : roundDyadic (d * (fdivNat 384 m).mag) (-(t:ℤ)) =
        (d * (fdivNat 384 m).mag, -(t:ℤ)) := by
      rw [roundDyadic, if_pos hP]
    rw [hro]
    have hen : ¬ (0:ℤ) ≤ -(t:ℤ) := by omega
    have htr : truncF ⟨false, d * (fdivNat 384 m).mag, -(t:ℤ)⟩ =
        ((d * (fdivNat 384 m).mag / 2 ^ t : ℕ) : ℤ) := by
      rw [truncF]
      simp only [if_neg hen]
      norm_num
    rw [htr, Int.toNat_natCast]
    have := chain_div_le d m t 0 (fdivNat 384 m).mag
      (d * (fdivNat 384 m).mag) (by omega) (by omega) (by omega)
      hmagm (by omega)
    rwa [Nat.sub_zero] at this
  · have hPpos : 1 ≤ d * (fdivNat 384 m).mag := by
      have : (1:ℕ) ≤ 2 ^ 53 := Nat.one_le_two_pow
      omega
    have hms75 : (fdivNat 384 m).mag < 2 ^ 75 := by
      have h1 : (384:ℕ) * 2 ^ t ≤ 384 * 2 ^ 65 :=
        Nat.mul_le_mul_left _ (Nat.pow_le_pow_right (by norm_num) ht65)
      have h2 : (384:ℕ) * 2 ^ 65 + 1 < 2 ^ 75 := by norm_num
      omega
    have hPlt : d * (fdivNat 384 m).mag < 2 ^ 95 := by
      have ha : d * (fdivNat 384 m).mag ≤ 2 ^ 20 * (fdivNat 384 m).mag :=
        Nat.mul_le_mul_right _ hd
      have hb : (2:ℕ) ^ 20 * (fdivNat 384 m).mag < 2 ^ 20 * 2 ^ 75 :=
        mul_lt_mul_of_pos_left hms75 (by positivity)
      have hc : (2:ℕ) ^ 20 * 2 ^ 75 = 2 ^ 95 := by norm_num
      omega
    have hbl : bitlen (d * (fdivNat 384 m).mag) ≤ 95 :=
      bitlen_le _ _ hPpos hPlt
    have hk42 : bitlen (d * (fdivNat 384 m).mag) - 53 ≤ 42 := by omega
    have hkt : bitlen (d * (fdivNat 384 m).mag) - 53 < t := by omega
    have hdk : d + 2 ^ (bitlen (d * (fdivNat 384 m).mag) - 53) < 2 ^ t := by
      have hk' : (2:ℕ) ^ (bitlen (d * (fdivNat 384 m).mag) - 53) ≤ 2 ^ 42 :=
        Nat.pow_le_pow_right (by norm_num) hk42
      have hbig : (2:ℕ) ^ 20 + 2 ^ 42 < 2 ^ 52 := by norm_num
      omega
    have hro : roundDyadic (d * (fdivNat 384 m).mag) (-(t:ℤ)) =
        (roundMag (d * (fdivNat 384 m).mag)
          (bitlen (d * (fdivNat 384 m).mag) - 53),
         -(t:ℤ) + (bitlen (d * (fdivNat 384 m).mag) - 53 : ℕ)) := by
      rw [roundDyadic, if_neg hP]
    rw [hro]
    have hen : ¬ (0:ℤ) ≤ -(t:ℤ) + (bitlen (d * (fdivNat 384 m).mag) - 53 : ℕ) := by
      omega
    have htn : (-(-(t:ℤ) + (bitlen (d * (fdivNat 384 m).mag) - 53 : ℕ))).toNat =
        t - (bitlen (d * (fdivNat 384 m).mag) - 53) := by
      omega
    have htr : truncF ⟨false,
        roundMag (d * (fdivNat 384 m).mag)
          (bitlen (d * (fdivNat 384 m).mag) - 53),
        -(t:ℤ) + (bitlen (d * (fdivNat 384 m).mag) - 53 : ℕ)⟩ =
        ((roundMag (d * (fdivNat 384 m).mag)
            (bitlen (d * (fdivNat 384 m).mag) - 53) /
          2 ^ (t - (bitlen (d * (fdivNat 384 m).mag) - 53)) : ℕ) : ℤ) := by
      rw [truncF]
      simp only [if_neg hen]
      rw [htn]
      norm_num
    rw [htr, Int.toNat_natCast]
    exact chain_div_le d m t (bitlen (d * (fdivNat 384 m).mag) - 53)
      (fdivNat 384 m).mag _ (by omega) hkt hdk hmagm
      (roundMag_mul_le _ _)

/-- C5: the downscale step scales by bound / max(h, w) rounding to the
nearest integer, and never upscales.  AMENDED: both `resize_image` copies
truncate with Python `int()` rather than round to nearest, the bound is
the constant 384, and the scaling runs in IEEE binary64, so the scaled
larger dimension is not even always 384 (a 300×535 frame yields 215×383
because 535·(384/535) rounds to 383.99999999999994).  The amended claim
proved here for frame-sized inputs (dimensions up to 2^20): frames within
the bound are returned unchanged, the output never exceeds the input in
either dimension, a 1200-wide by 800-high frame yields exactly 384×256,
and a 535-wide by 300-high frame yields exactly 383×215. -/
theorem c5_resize_truncates_never_upscales (height width : ℕ)
    (hh : height ≤ 2 ^ 20) (hw : width ≤ 2 ^ 20) :
    (max height width ≤ MAX_IMAGE_SIZE →
      resize_image_dims height width = (height, width)) ∧
    (resize_image_dims height width).1 ≤ height ∧
    (resize_image_dims height width).2 ≤ width ∧
    resize_image_dims 800 1200 = (256, 384) ∧
    resize_image_dims 300 535 = (215, 383) := by
  by_cases hc : MAX_IMAGE_SIZE < height ∨ MAX_IMAGE_SIZE < width
  · have hm1 : 385 ≤ max height width := by
      simp only [MAX_IMAGE_SIZE] at hc
      omega
    have hm2 : max height width ≤ 2 ^ 20 := by omega
    have hres : resize_image_dims height width =
        ((truncF (fmul (floatOfNat height)
            (fdivNat MAX_IMAGE_SIZE (max height width)))).toNat,
         (truncF (fmul (floatOfNat width)
            (fdivNat MAX_IMAGE_SIZE (max height width)))).toNat) := by
      rw [resize_image_dims, if_pos hc]
    refine ⟨fun hle => absurd hc (by simp only [MAX_IMAGE_SIZE] at hle ⊢; omega),
      ?_, ?_, by decide, by decide⟩
    · rw [hres]
      exact trunc_scaled_le height (max height width) hh hm1 hm2
    · rw [hres]
      exact trunc_scaled_le width (max height width) hw hm1 hm2
  · have hres : resize_image_dims height width = (height, width) := by
      rw [resize_image_dims, if_neg hc]
    exact ⟨fun _ => hres, by rw [hres], by rw [hres], by decide, by decide⟩

/-- C5 witness: the amended theorem at the 800-high, 1200-wide frame. -/
theorem c5_resize_witness :
    resize_image_dims 800 1200 = (256, 384) ∧
    (resize_image_dims 800 1200).1 ≤ 800 ∧
    (resize_image_dims 800 1200).2 ≤ 1200 :=
  ⟨(c5_resize_truncates_never_upscales 800 1200 (by norm_num)
      (by norm_num)).2.2.2.1,
   (c5_resize_truncates_never_upscales 800 1200 (by norm_num)
      (by norm_num)).2.1,
   (c5_resize_truncates_never_upscales 800 1200 (by norm_num)
      (by norm_num)).2.2.1⟩

/-- C5 counterexample: the claim's round-to-nearest rule is false for the
code.  On a 1000-high, 999-wide frame the scaled width
999 * (384/1000) = 383.616 (383.61600000000004 as doubles) has nearest
integer 384, but the program truncates to 383. -/
theorem c5_counterexample :
    resize_image_dims 1000 999 = (384, 383) ∧
    specRoundedDims MAX_IMAGE_SIZE 1000 999 = (384, 384) ∧
    resize_image_dims 1000 999 ≠ specRoundedDims MAX_IMAGE_SIZE 1000 999 := by
  refine ⟨by decide, by decide, by decide⟩

/-! ## Frame index resolution

Embedding of the middle-frame choice in `HashtagGenerator._extract_frames`
(hashtag_generator.py line 171, identical in the thumbnail_generator copy)
and the timestamp resolution in `VideoFrameAnalyzer._extract_frame`
(analyzer.py lines 94-96).  Timestamp and frame rate are Python floats, so
the index is the truncation of their binary64 product. -/

/-- Python `total_frames // 2`. -/
def middle_frame (total_frames : ℕ) : ℕ := total_frames / 2

/-- Embedding of `frame_number = int(timestamp * fps)` followed by
`if frame_number >= total_frames: frame_number = total_frames - 1`.
There is no lower clamp in the code, and the product is the rounded
binary64 product. -/
def timestamp_frame (timestamp fps : F64) (total_frames : ℕ) : ℤ :=
  if (total_frames : ℤ) ≤ truncF (fmul timestamp fps) then
    (total_frames : ℤ) - 1
  else truncF (fmul timestamp fps)

/-- Exact rational value of a binary64 datum. -/
def valQ (x : F64) : ℚ :=
  (if x.neg then (-1 : ℚ) else 1) * (x.mag : ℚ) * (2 : ℚ) ^ x.exp

/-- Modelled from the spec wording, for comparison only: floor(T * fps)
clamped to [0, total_frames - 1], in exact real arithmetic. -/
def specClampedFrame (timestamp fps : ℚ) (total_frames : ℕ) : ℤ :=
  max 0 (min ⌊timestamp * fps⌋ ((total_frames : ℤ) - 1))

theorem truncF_nonneg (x : F64) (h : x.neg = false) : 0 ≤ truncF x := by
  rw [truncF, h]
  rw [if_neg Bool.false_ne_true]
  exact Int.natCast_nonneg _

/-- C6: middle frame resolves to floor(total_frames / 2) (101 gives 50)
and "timestamp T" to floor(T * fps) clamped to [0, total_frames - 1].
AMENDED: the middle-frame part holds as claimed.  The timestamp part
computes int() of the binary64 product with only an UPPER clamp, so the
exact-floor formula fails both for negative timestamps (no lower clamp)
and when double rounding crosses an integer boundary (see the
counterexample); what does hold, and is proved here, is that for
non-negative double inputs on a video with at least one frame the index
always lies in the claimed range [0, total_frames - 1], together with the
concrete instance timestamp 2.0 s at 30.0 fps on 10 frames giving index
9. -/
theorem c6_frame_index (timestamp fps : F64) (total_frames : ℕ)
    (ht : timestamp.neg = false) (hf : fps.neg = false)
    (htot : 1 ≤ total_frames) :
    middle_frame 101 = 50 ∧
    0 ≤ timestamp_frame timestamp fps total_frames ∧
    timestamp_frame timestamp fps total_frames ≤ (total_frames : ℤ) - 1 ∧
    timestamp_frame ⟨false, 2, 0⟩ ⟨false, 30, 0⟩ 10 = 9 := by
  have hmn : (fmul timestamp fps).neg = false := by
    show xor timestamp.neg fps.neg = false
    rw [ht, hf]
    rfl
  have hnn : 0 ≤ truncF (fmul timestamp fps) := truncF_nonneg _ hmn
  have htot' : (1:ℤ) ≤ (total_frames : ℤ) := by exact_mod_cast htot
  refine ⟨rfl, ?_, ?_, by decide⟩
  · rw [timestamp_frame]
    split_ifs with hcl
    · omega
    · omega
  · rw [timestamp_frame]
    split_ifs with hcl
    · omega
    · omega

/-- C6 witness: timestamp 2.0 s, 30.0 fps, 10 frames: the index is 9 and
in range. -/
theorem c6_frame_index_witness :
    0 ≤ timestamp_frame ⟨false, 2, 0⟩ ⟨false, 30, 0⟩ 10 ∧
    timestamp_frame ⟨false, 2, 0⟩ ⟨false, 30, 0⟩ 10 ≤ (10 : ℤ) - 1 ∧
    timestamp_frame ⟨false, 2, 0⟩ ⟨false, 30, 0⟩ 10 = 9 :=
  ⟨(c6_frame_index ⟨false, 2, 0⟩ ⟨false, 30, 0⟩ 10 rfl rfl (by norm_num)).2.1,
   (c6_frame_index ⟨false, 2, 0⟩ ⟨false, 30, 0⟩ 10 rfl rfl (by norm_num)).2.2.1,
   (c6_frame_index ⟨false, 2, 0⟩ ⟨false, 30, 0⟩ 10 rfl rfl (by norm_num)).2.2.2⟩

/-- C6 counterexample: two failures of the claimed formula.  First, a
negative timestamp: at -1.0 s, 30.0 fps, 10 frames the code computes index
-30 while the claimed clamped floor is 0 — there is no lower clamp.
Second, double rounding: at timestamp 0.03333333333333333 s (the binary64
value 4803839602528529·2^-57, the double nearest to 1/30) and 30.0 fps the
double product rounds up to exactly 1.0, so the code decodes frame 1,
while floor(T * fps) in exact arithmetic — the claim's formula — is 0. -/
theorem c6_counterexample :
    timestamp_frame ⟨true, 1, 0⟩ ⟨false, 30, 0⟩ 10 = -30 ∧
    specClampedFrame (valQ ⟨true, 1, 0⟩) (valQ ⟨false, 30, 0⟩) 10 = 0 ∧
    timestamp_frame ⟨false, 4803839602528529, -57⟩ ⟨false, 30, 0⟩ 10 = 1 ∧
    specClampedFrame (valQ ⟨false, 4803839602528529, -57⟩)
      (valQ ⟨false, 30, 0⟩) 10 = 0 := by
  have h30 : valQ ⟨false, 30, 0⟩ = 30 := by norm_num [valQ]
  refine ⟨by decide, ?_, by decide, ?_⟩
  · have h1 : valQ ⟨true, 1, 0⟩ = -1 := by norm_num [valQ]
    rw [specClampedFrame, h1, h30]
    have h3 : ((-1 : ℚ) * 30) = ((-30 : ℤ) : ℚ) := by norm_num
    rw [h3, Int.floor_intCast]
    omega
  · rw [specClampedFrame, h30]
    have hval : valQ ⟨false, 4803839602528529, -57⟩ * 30 =
        (144115188075855870 : ℚ) / 144115188075855872 := by
      norm_num [valQ, zpow_neg]
    rw [hval]
    have hfl : ⌊(144115188075855870 : ℚ) / 144115188075855872⌋ = 0 := by
      rw [Int.floor_eq_zero_iff, Set.mem_Ico]
      constructor
      · positivity
      · norm_num
    rw [hfl]
    omega

/-! ## Thumbnail generation and the decoder handle

Embedding of `generate_thumbnail` (video.py lines 68-87; the copies in
functions/main.py lines 31-55, thumbnail_generator/main.py lines 205-220 and
thumbnail_main.py have the same control flow).  The function opens a
`cv2.VideoCapture` handle, reads one frame, converts colors, encodes, and
calls `cap.release()` only at the end of the success path; the
`if not success: raise ValueError` path and the re-raising `except` branch
return without releasing. -/

/-- Failure switches for the steps inside `generate_thumbnail`: whether
`cap.read()` succeeds, whether `cv2.cvtColor` raises, whether the PIL
encode raises. -/
structure DecodeEnv where
  read_ok : Bool
  convert_ok : Bool
  encode_ok : Bool

/-- Result of `generate_thumbnail` together with a flag recording whether
`cap.release()` ran before the function returned or the exception
propagated. -/
def generate_thumbnail (env : DecodeEnv) : Except String Unit × Bool :=
  if !env.read_ok then (Except.error "Could not read video frame", false)
  else if !env.convert_ok then (Except.error "cvtColor failed", false)
  else if !env.encode_ok then (Except.error "image encode failed", false)
  else (Except.ok (), true)

/-- C7: the decoder handle is closed on every execution path.  AMENDED:
`cap.release()` runs exactly on the success path; when the frame read fails
or a later step raises, the exception propagates without the handle being
released.  The amended claim proved here: the handle is released if and
only if every step succeeded. -/
theorem c7_release_only_on_success (env : DecodeEnv) :
    (generate_thumbnail env).2 = true ↔
      (generate_thumbnail env).1.isOk = true := by
  rcases env with ⟨r, c, e⟩
  cases r <;> cases c <;> cases e <;> rfl

/-- C7 witness: the release-iff-success equivalence instantiated at the
all-steps-succeed environment, where the handle is indeed released. -/
theorem c7_release_witness :
    (generate_thumbnail ⟨true, true, true⟩).2 = true ↔
      (generate_thumbnail ⟨true, true, true⟩).1.isOk = true :=
  c7_release_only_on_success ⟨true, true, true⟩

/-- C7 counterexample: when the frame read fails the function raises
"Could not read video frame" and the handle is left open, refuting the
claim that it is closed before the exception propagates. -/
theorem c7_counterexample :
    (generate_thumbnail ⟨false, true, true⟩).1 =
      Except.error "Could not read video frame" ∧
    (generate_thumbnail ⟨false, true, true⟩).2 = false :=
  ⟨rfl, rfl⟩

/-! ## AI content generation

Embedding of `HashtagGenerator._generate_content_description` and
`HashtagGenerator._generate_hashtags`
(hashtag_generator/hashtag_generator/hashtag_generator.py lines 210-326;
the thumbnail_generator copy, lines 189-275 of its hashtag_generator.py,
has the same fallback structure).  The OpenAI call and the JSON parse are
modelled as an oracle outcome: `Except.error` covers an API exception and a
`json.JSONDecodeError` alike, since both reach the outer `except` of the
function. -/

/-- JSON values as far as the parser inspects them: an object with string
fields, or any other value (which fails the `isinstance(content, dict)`
check). -/
inductive Json where
  | obj : List (String × String) → Json
  | other : Json

/-- Python `s.strip()`. -/
def pyStrip (s : String) : String :=
  String.mk (((s.data.dropWhile Char.isWhitespace).reverse.dropWhile
    Char.isWhitespace).reverse)

/-- Python `s[:n]`. -/
def pyTake (s : String) (n : ℕ) : String := String.mk (s.data.take n)

def FALLBACK_TITLE : String := "Untitled Video"

def FALLBACK_DESCRIPTION : String := "No description available"

/-- Embedding of `_generate_content_description`: any API/parse failure,
non-dict response, missing field, or field that is empty after stripping
falls back to the placeholder pair; otherwise the stripped title and
description are truncated to 50 and 150 characters. -/
def generate_content_description (response : Except String Json) :
    String × String :=
  match response with
  | .error _ => (FALLBACK_TITLE, FALLBACK_DESCRIPTION)
  | .ok .other => (FALLBACK_TITLE, FALLBACK_DESCRIPTION)
  | .ok (.obj kvs) =>
      match kvs.lookup "title", kvs.lookup "description" with
      | some t, some d =>
          if pyStrip t = "" ∨ pyStrip d = "" then
            (FALLBACK_TITLE, FALLBACK_DESCRIPTION)
          else (pyTake (pyStrip t) 50, pyTake (pyStrip d) 150)
      | some _, none => (FALLBACK_TITLE, FALLBACK_DESCRIPTION)
      | none, _ => (FALLBACK_TITLE, FALLBACK_DESCRIPTION)

/-- Python `s.split()` with no argument: split on maximal whitespace runs,
dropping empty fields.  Defined structurally like `splitChar`. -/
def splitPred (p : Char → Bool) : List Char → List (List Char)
  | [] => [[]]
  | c :: rest =>
      match splitPred p rest with
      | [] => if p c then [[], []] else [[c]]
      | h :: t => if p c then [] :: h :: t else (c :: h) :: t

/-- Python `s.split()`. -/
def pySplitWs (s : String) : List String :=
  ((splitPred Char.isWhitespace s.data).filter (fun t => t ≠ [])).map
    String.mk

/-- Python `s.startswith(pre)` restated for the hashtag check. -/
theorem startsWithHash_append (t : String) :
    pyStartsWith ("#" ++ t) "#" = true := by
  have hsharp : "#".data = ['#'] := rfl
  have hd : ("#" ++ t).data = '#' :: t.data := by
    rw [String.data_append, hsharp]
    rfl
  rw [pyStartsWith, hd, hsharp]
  simp [List.isPrefixOf]

/-- Embedding of `_generate_hashtags`: the message content is split on
whitespace, a `#` is prepended to tokens lacking one, and the first five
tags are kept.  `Except.error` covers an API exception; `.ok none` covers a
`None` message content, whose `.strip()` raises AttributeError and reaches
the same `except` branch.  Either way the function returns `[]`. -/
def generate_hashtags (response : Except String (Option String)) :
    List String :=
  match response with
  | .error _ => []
  | .ok none => []
  | .ok (some content) =>
      ((pySplitWs (pyStrip content)).map
        (fun tag => if pyStartsWith tag "#" then tag else "#" ++ tag)).take 5

/-- Failure shapes of the description call: exception, non-dict response,
missing field, or empty-after-strip field. -/
def aiDescriptionFailed (r : Except String Json) : Bool :=
  match r with
  | .error _ => true
  | .ok .other => true
  | .ok (.obj kvs) =>
      match kvs.lookup "title", kvs.lookup "description" with
      | some t, some d =>
          if pyStrip t = "" ∨ pyStrip d = "" then true else false
      | some _, none => true
      | none, _ => true

/-- Failure shapes of the hashtag call: exception or empty (None) message
content. -/
def aiHashtagFailed (r : Except String (Option String)) : Bool :=
  match r with
  | .error _ => true
  | .ok none => true
  | .ok (some _) => false

/-- C9: every failure of the AI analysis call (exception, malformed or
empty response) degrades to the placeholder result — the fallback
title/description pair ("Untitled Video" / "No description available") and
an empty hashtag list — rather than propagating.  The two generators are
total functions here, so no failure propagates by construction. -/
theorem c9_ai_failures_degrade (r : Except String Json)
    (r2 : Except String (Option String))
    (h1 : aiDescriptionFailed r = true) (h2 : aiHashtagFailed r2 = true) :
    generate_content_description r = (FALLBACK_TITLE, FALLBACK_DESCRIPTION) ∧
    generate_hashtags r2 = [] := by
  constructor
  · match r with
    | .error _ => rfl
    | .ok .other => rfl
    | .ok (.obj kvs) =>
        rw [generate_content_description]
        rw [aiDescriptionFailed] at h1
        cases ht : kvs.lookup "title" with
        | none => cases kvs.lookup "description" <;> rfl
        | some t =>
            cases hdsc : kvs.lookup "description" with
            | none => rfl
            | some d =>
                rw [ht, hdsc] at h1
                have h1a : (if pyStrip t = "" ∨ pyStrip d = "" then true
                    else false) = true := h1
                by_cases hemp : pyStrip t = "" ∨ pyStrip d = ""
                · show (if pyStrip t = "" ∨ pyStrip d = "" then
                      (FALLBACK_TITLE, FALLBACK_DESCRIPTION)
                    else (pyTake (pyStrip t) 50, pyTake (pyStrip d) 150)) =
                      (FALLBACK_TITLE, FALLBACK_DESCRIPTION)
                  rw [if_pos hemp]
                · rw [if_neg hemp] at h1a
                  exact absurd h1a (by simp)
  · match r2 with
    | .error _ => rfl
    | .ok none => rfl
    | .ok (some _) => exact absurd h2 (by simp [aiHashtagFailed])

/-- C9 witness: an API exception yields the placeholder pair and the empty
hashtag list. -/
theorem c9_ai_failures_witness :
    generate_content_description (Except.error "api down") =
      (FALLBACK_TITLE, FALLBACK_DESCRIPTION) ∧
    generate_hashtags (Except.error "api down") = [] :=
  c9_ai_failures_degrade (Except.error "api down") (Except.error "api down")
    rfl rfl

/-- C10: for every text returned by the AI hashtag call, the generator
returns at most 5 hashtags, each beginning with the character #, a # being
prepended to any whitespace-separated token lacking one. -/
theorem c10_hashtags_shape (content : String) :
    (generate_hashtags (Except.ok (some content))).length ≤ 5 ∧
    ∀ tag ∈ generate_hashtags (Except.ok (some content)),
      pyStartsWith tag "#" = true := by
  constructor
  · exact List.length_take_le 5 _
  · intro tag htag
    have hmem : tag ∈ (pySplitWs (pyStrip content)).map
        (fun tag => if pyStartsWith tag "#" then tag else "#" ++ tag) :=
      List.mem_of_mem_take htag
    obtain ⟨t, _, rfl⟩ := List.mem_map.mp hmem
    by_cases hsw : pyStartsWith t "#" = true
    · rw [if_pos hsw]
      exact hsw
    · rw [if_neg hsw]
      exact startsWithHash_append t

/-- C10 witness: on a concrete AI response "nature #fun" the generator
yields tags, "#nature" is among them, and it starts with #. -/
theorem c10_hashtags_witness :
    (generate_hashtags (Except.ok (some "nature #fun"))).length ≤ 5 ∧
    pyStartsWith "#nature" "#" = true :=
  ⟨(c10_hashtags_shape "nature #fun").1,
   (c10_hashtags_shape "nature #fun").2 "#nature" (by decide)⟩

/-! ## Pipeline state machine

Embedding of the fetch/thumbnail pipeline.  Two copies exist in the source:
`VideoProcessor` (video.py lines 26-248, invoked through its context
manager as in test_local.py) and the function-level `process_video` /
`process_local_video` (thumbnail_generator/main.py lines 279-554).  Local
temp files are modelled as numbered tickets: `tempfile.mkstemp` hands out
the next number and puts it on `disk`; `os.remove` erases it.  External
collaborators are oracles in `PipelineEnv`. -/

/-- Outcome of a blob-store probe: `exists()` true, `exists()` false, or an
SDK exception. -/
inductive BlobOutcome where
  | found
  | notFound
  | exc
deriving DecidableEq

/-- Outcome of `requests.get`: status 200, another status, or a raised
exception. -/
inductive HttpOutcome where
  | ok
  | badStatus
  | exc
deriving DecidableEq

/-- External-collaborator oracles and failure switches for one pipeline
invocation. -/
structure PipelineEnv where
  gsBlob : String → String → BlobOutcome
  storageBlob : String → BlobOutcome
  http : String → HttpOutcome
  bucket_ok : Bool
  decode_ok : Bool
  upload_ok : Bool
  dims_ok : Bool
  update_ok : Bool
  status_update_ok : Bool

/-- Local filesystem, the processor's `self.temp_file`, and the Firestore
document fields for the one video id being processed. -/
structure PState where
  nextTemp : ℕ
  disk : List ℕ
  tempFile : Option ℕ
  status : Option String
  procError : Option String
deriving DecidableEq

def initState : PState := ⟨0, [], none, none, none⟩

/-- Python dict returned by the pipeline: a key maps to `none` when absent,
matching `'success' in result` checks at the call sites. -/
structure PResult where
  success : Option Bool
  error : Option String
  videoId : Option String
  thumbnailPath : Option String
deriving DecidableEq

/-- `tempfile.mkstemp`: a fresh file appears on disk. -/
def mkstemp (s : PState) : ℕ × PState :=
  (s.nextTemp,
   { s with nextTemp := s.nextTemp + 1, disk := s.disk ++ [s.nextTemp] })

/-- `os.remove` guarded by `os.path.exists`. -/
def removeFile (n : ℕ) (s : PState) : PState :=
  { s with disk := s.disk.erase n }

/-- `VideoProcessor.cleanup` (video.py lines 43-50): removes the file named
by `self.temp_file`, if any; the attribute itself is not reset. -/
def vpCleanup (s : PState) : PState :=
  match s.tempFile with
  | some n => removeFile n s
  | none => s

/-- `VideoProcessor._update_processing_status` (video.py lines 235-248):
best-effort Firestore update; its own `except` swallows failures, and
`processingError` is only written for a non-empty message. -/
def update_processing_status (env : PipelineEnv) (status msg : String)
    (s : PState) : PState :=
  if env.status_update_ok then
    { s with status := some status,
             procError := if msg = "" then s.procError else some msg }
  else s

/-- `VideoProcessor.download_from_url` (video.py lines 122-148): the temp
file is created first; a gs:// URL goes through the blob store, anything
else through HTTP.  Only the `except` branch calls `self.cleanup()`; the
plain not-found / non-200 returns leave the temp file on disk. -/
def download_from_url (env : PipelineEnv) (url : String) (s : PState) :
    Bool × PState :=
  let (n, s1) := mkstemp s
  let s2 := { s1 with tempFile := some n }
  if pyStartsWith url "gs://" then
    match env.gsBlob (gsUrlBucket url) (gsUrlPath url) with
    | .found => (true, s2)
    | .notFound => (false, s2)
    | .exc => (false, vpCleanup s2)
  else
    match env.http url with
    | .ok => (true, s2)
    | .badStatus => (false, s2)
    | .exc => (false, vpCleanup s2)

/-- `VideoProcessor.download_from_storage` (video.py lines 150-165): the
temp file is created only after `blob.exists()` succeeds; the `except`
branch calls `self.cleanup()` (which removes whatever `self.temp_file`
currently names). -/
def download_from_storage (env : PipelineEnv) (path : String) (s : PState) :
    Bool × PState :=
  match env.storageBlob path with
  | .found =>
      let (n, s1) := mkstemp s
      (true, { s1 with tempFile := some n })
  | .notFound => (false, s)
  | .exc => (false, vpCleanup s)

/-- `VideoProcessor._process_loaded_video` (video.py lines 190-233): any
raise inside is caught, the status is set to failed best-effort, and an
error dict is returned; on full success the completed update runs and the
success dict is returned. -/
def process_loaded_video (env : PipelineEnv) (videoId : String)
    (s : PState) : PResult × PState :=
  if env.decode_ok = false then
    (⟨none, some "Could not read video frame", some videoId, none⟩,
     update_processing_status env "failed" "Could not read video frame" s)
  else if env.upload_ok = false then
    (⟨none, some "thumbnail upload failed", some videoId, none⟩,
     update_processing_status env "failed" "thumbnail upload failed" s)
  else if env.update_ok = false then
    (⟨none, some "metadata update failed", some videoId, none⟩,
     update_processing_status env "failed" "metadata update failed" s)
  else
    (⟨some true, none, some videoId,
      some ("thumbnails/" ++ videoId ++ ".jpg")⟩,
     { s with status := some "completed" })

/-- The candidate loop of `VideoProcessor.process` (video.py lines
176-182). -/
def tryPaths (env : PipelineEnv) (videoId notFoundMsg : String) :
    List String → PState → PResult × PState
  | [], s => (⟨none, some notFoundMsg, some videoId, none⟩, s)
  | p :: rest, s =>
      let (ok, s1) := download_from_storage env p s
      if ok then process_loaded_video env videoId s1
      else tryPaths env videoId notFoundMsg rest s1

/-- The not-found error message of video.py line 180 / main.py line 532. -/
def notFoundMessage (candidates : List String) : String :=
  "Video not found. Tried paths: " ++ String.intercalate ", " candidates

/-- `VideoProcessor.process` (video.py lines 167-188): direct URL download
first when `storageUrl` is truthy, then every candidate path; when nothing
matches, the error dict is returned WITHOUT any Firestore update (the
failed-status update of the `except` branch runs only for exceptions, and
every inner raise is already caught deeper down). -/
def vpProcess (uq : String → String) (env : PipelineEnv) (videoId : String)
    (vd : VideoData) (s : PState) : PResult × PState :=
  let paths := get_possible_paths uq videoId vd
  let nf := notFoundMessage paths
  match vd.storageUrl with
  | some url =>
      if url = "" then tryPaths env videoId nf paths s
      else
        let (ok, s1) := download_from_url env url s
        if ok then process_loaded_video env videoId s1
        else tryPaths env videoId nf paths s1
  | none => tryPaths env videoId nf paths s

/-- One context-managed `VideoProcessor` invocation, as at test_local.py
lines 61-63: `process()` followed by the `__exit__` cleanup. -/
def vpRun (uq : String → String) (env : PipelineEnv) (videoId : String)
    (vd : VideoData) (s : PState) : PResult × PState :=
  let (r, s1) := vpProcess uq env videoId vd s
  (r, vpCleanup s1)

/-- `process_local_video` (thumbnail_generator/main.py lines 279-345):
raises on any step failure (including the `dimensions['width']` KeyError
when extraction yielded an empty dict), returns the success dict otherwise,
and its `finally` always removes its own temp file. -/
def process_local_video (env : PipelineEnv) (videoId : String) (tempn : ℕ)
    (s : PState) : Except String PResult × PState :=
  if env.decode_ok = false then
    (.error "Could not read video frame", removeFile tempn s)
  else if env.upload_ok = false then
    (.error "thumbnail upload failed", removeFile tempn s)
  else if env.dims_ok = false then
    (.error "KeyError: width", removeFile tempn s)
  else if env.update_ok = false then
    (.error "metadata update failed", removeFile tempn s)
  else
    (.ok ⟨some true, none, some videoId,
       some ("thumbnails/" ++ videoId ++ ".jpg")⟩,
     removeFile tempn { s with status := some "completed" })

/-- The candidate loop of `process_video` (main.py lines 512-529): an
exception while probing a path is logged and the loop continues; a hit
creates the temp file and hands off to `process_local_video`.  The
`return` sits inside the per-path `try`, so a raise out of
`process_local_video` is caught by the same `except` and the loop
continues with the next candidate. -/
def tryPathsMain (env : PipelineEnv) (videoId notFoundMsg : String) :
    List String → PState → Except String PResult × PState
  | [], s => (.ok ⟨none, some notFoundMsg, some videoId, none⟩, s)
  | p :: rest, s =>
      match env.storageBlob p with
      | .found =>
          let (n, s1) := mkstemp s
          match process_local_video env videoId n s1 with
          | (.ok r, s2) => (.ok r, s2)
          | (.error _, s2) => tryPathsMain env videoId notFoundMsg rest s2
      | .notFound => tryPathsMain env videoId notFoundMsg rest s
      | .exc => tryPathsMain env videoId notFoundMsg rest s

/-- The body of `process_video` (main.py lines 416-534) up to its outer
`except`: bucket check, direct-URL attempt, then the candidate loop.  In
the HTTP branch the temp file is created before the request and neither the
non-200 return nor the inner `except` removes it.  In both URL branches
the `return process_local_video(...)` sits inside an inner `try`, so a
raise out of `process_local_video` is caught and logged there and control
falls through to the candidate loop. -/
def processVideoBody (uq : String → String) (env : PipelineEnv)
    (videoId : String) (vd : VideoData) (s : PState) :
    Except String PResult × PState :=
  if env.bucket_ok = false then (.error "bucket access failed", s)
  else
    let paths := get_possible_video_paths uq videoId vd
    let nf := notFoundMessage paths
    match vd.storageUrl with
    | some url =>
        if url = "" then tryPathsMain env videoId nf paths s
        else if pyStartsWith url "gs://" then
          match env.gsBlob (gsUrlBucket url) (gsUrlPath url) with
          | .found =>
              let (n, s1) := mkstemp s
              match process_local_video env videoId n s1 with
              | (.ok r, s2) => (.ok r, s2)
              | (.error _, s2) => tryPathsMain env videoId nf paths s2
          | .notFound => tryPathsMain env videoId nf paths s
          | .exc => tryPathsMain env videoId nf paths s
        else
          let (n, s1) := mkstemp s
          match env.http url with
          | .ok =>
              match process_local_video env videoId n s1 with
              | (.ok r, s2) => (.ok r, s2)
              | (.error _, s2) => tryPathsMain env videoId nf paths s2
          | .badStatus => tryPathsMain env videoId nf paths s1
          | .exc => tryPathsMain env videoId nf paths s1
    | none => tryPathsMain env videoId nf paths s

/-- `process_video` (main.py lines 416-554): the outer `except` converts a
propagating exception into the failed-status update (itself best-effort)
and an error dict; normal returns pass through. -/
def process_video_main (uq : String → String) (env : PipelineEnv)
    (videoId : String) (vd : VideoData) (s : PState) : PResult × PState :=
  match processVideoBody uq env videoId vd s with
  | (.ok r, s1) => (r, s1)
  | (.error e, s1) =>
      (⟨none, some e, some videoId, none⟩,
       if env.status_update_ok then
         { s1 with status := some "failed", procError := some e }
       else s1)

/-! ## C1: temp-file cleanup -/

/-- World for the C1 failing input: the record's HTTP storageUrl answers
with a non-200 status, the blob store has the video at its storagePath, and
every later step succeeds. -/
def leakEnv : PipelineEnv :=
  { gsBlob := fun _ _ => .notFound
    storageBlob := fun p => if p = "videos/v1.mp4" then .found else .notFound
    http := fun _ => .badStatus
    bucket_ok := true
    decode_ok := true
    upload_ok := true
    dims_ok := true
    update_ok := true
    status_update_ok := true }

def leakRecord : VideoData :=
  ⟨some "videos/v1.mp4", some "https://cdn.example/v1.mp4"⟩

/-- C1: after every invocation, zero temporary local files remain, and each
failed fetch attempt that created a temp file deletes it before the next
candidate is tried.  The code violates this: in both pipeline copies the
HTTP fetch creates its temp file before the request and the non-200 return
path deletes nothing (video.py lines 125-144, main.py lines 480-496), so
the file is still on disk when the next candidate is tried, and after a
later candidate succeeds (overwriting `self.temp_file` in the
VideoProcessor copy; using its own temp name in the main.py copy) the first
file survives the final cleanup.  This theorem evaluates both pipelines at
the failing input: the invocation reports success, yet temp file 0 remains
on disk. -/
theorem c1_temp_file_leak :
    (vpRun (fun s => s) leakEnv "v1" leakRecord initState).1.success =
      some true ∧
    (vpRun (fun s => s) leakEnv "v1" leakRecord initState).2.disk = [0] ∧
    (process_video_main (fun s => s) leakEnv "v1" leakRecord
      initState).1.success = some true ∧
    (process_video_main (fun s => s) leakEnv "v1" leakRecord
      initState).2.disk = [0] := by
  refine ⟨by decide, by decide, by decide, by decide⟩

/-! ## C2: behavior when no candidate matches -/

theorem vpCleanup_status (s : PState) : (vpCleanup s).status = s.status := by
  rw [vpCleanup]
  cases s.tempFile <;> rfl

theorem tryPaths_all_notFound (env : PipelineEnv) (videoId nf : String)
    (hst : ∀ p, env.storageBlob p = BlobOutcome.notFound) :
    ∀ (l : List String) (s : PState),
      tryPaths env videoId nf l s =
        (⟨none, some nf, some videoId, none⟩, s) := by
  intro l
  induction l with
  | nil => intro s; rfl
  | cons p rest ih =>
      intro s
      have hd : download_from_storage env p s = (false, s) := by
        rw [download_from_storage, hst p]
      rw [tryPaths, hd]
      exact ih s

theorem tryPathsMain_all_notFound (env : PipelineEnv) (videoId nf : String)
    (hst : ∀ p, env.storageBlob p = BlobOutcome.notFound) :
    ∀ (l : List String) (s : PState),
      tryPathsMain env videoId nf l s =
        (.ok ⟨none, some nf, some videoId, none⟩, s) := by
  intro l
  induction l with
  | nil => intro s; rfl
  | cons p rest ih =>
      intro s
      rw [tryPathsMain, hst p]
      exact ih s

theorem download_from_url_fails (env : PipelineEnv) (url : String)
    (s : PState) (hgs : ∀ b p, env.gsBlob b p = BlobOutcome.notFound)
    (hhttp : ∀ u, env.http u = HttpOutcome.badStatus) :
    download_from_url env url s =
      (false, { s with nextTemp := s.nextTemp + 1,
                       disk := s.disk ++ [s.nextTemp],
                       tempFile := some s.nextTemp }) := by
  by_cases hg : pyStartsWith url "gs://" = true
  · simp [download_from_url, mkstemp, hg, hgs]
  · simp [download_from_url, mkstemp, hg, hhttp]

theorem isPrefixOf_append_left :
    ∀ (pre a b : List Char), pre.isPrefixOf a = true →
      pre.isPrefixOf (a ++ b) = true := by
  intro pre
  induction pre with
  | nil =>
      intro a b _
      cases a ++ b with
      | nil => rfl
      | cons x xs => rfl
  | cons c cs ih =>
      intro a b h
      cases a with
      | nil => simp [List.isPrefixOf] at h
      | cons x xs =>
          simp only [List.isPrefixOf, List.cons_append, Bool.and_eq_true]
            at h ⊢
          exact ⟨h.1, ih xs b h.2⟩

theorem pyStartsWith_append_left (pre a b : String)
    (h : pyStartsWith a pre = true) : pyStartsWith (a ++ b) pre = true := by
  rw [pyStartsWith] at h ⊢
  rw [String.data_append]
  exact isPrefixOf_append_left _ _ _ h

theorem notFoundMessage_startsWith (candidates : List String) :
    pyStartsWith (notFoundMessage candidates) "Video not found" = true :=
  pyStartsWith_append_left _ _ _ (by decide)

theorem vpProcess_not_found (uq : String → String) (env : PipelineEnv)
    (videoId : String) (vd : VideoData) (s : PState)
    (hst : ∀ p, env.storageBlob p = BlobOutcome.notFound)
    (hgs : ∀ b p, env.gsBlob b p = BlobOutcome.notFound)
    (hhttp : ∀ u, env.http u = HttpOutcome.badStatus) :
    ∃ s1 : PState, s1.status = s.status ∧
      vpProcess uq env videoId vd s =
        (⟨none, some (notFoundMessage (get_possible_paths uq videoId vd)),
          some videoId, none⟩, s1) := by
  rcases vd with ⟨sp, su⟩
  have htry := tryPaths_all_notFound env videoId
    (notFoundMessage (get_possible_paths uq videoId ⟨sp, su⟩)) hst
  cases su with
  | none =>
      refine ⟨s, rfl, ?_⟩
      simp only [vpProcess]
      exact htry _ s
  | some url =>
      by_cases hurl : url = ""
      · refine ⟨s, rfl, ?_⟩
        simp only [vpProcess, if_pos hurl]
        exact htry _ s
      · have hdl := download_from_url_fails env url s hgs hhttp
        refine ⟨(download_from_url env url s).2, ?_, ?_⟩
        · rw [hdl]
        · simp only [vpProcess, if_neg hurl, hdl]
          exact htry _ _

theorem processVideoBody_not_found (uq : String → String)
    (env : PipelineEnv) (videoId : String) (vd : VideoData) (s : PState)
    (hst : ∀ p, env.storageBlob p = BlobOutcome.notFound)
    (hgs : ∀ b p, env.gsBlob b p = BlobOutcome.notFound)
    (hhttp : ∀ u, env.http u = HttpOutcome.badStatus)
    (hbucket : env.bucket_ok = true) :
    ∃ s1 : PState, s1.status = s.status ∧
      processVideoBody uq env videoId vd s =
        (.ok ⟨none,
          some (notFoundMessage (get_possible_video_paths uq videoId vd)),
          some videoId, none⟩, s1) := by
  rcases vd with ⟨sp, su⟩
  have htryM := tryPathsMain_all_notFound env videoId
    (notFoundMessage (get_possible_video_paths uq videoId ⟨sp, su⟩)) hst
  cases su with
  | none =>
      refine ⟨s, rfl, ?_⟩
      simp only [processVideoBody, hbucket]
      exact htryM _ s
  | some url =>
      by_cases hurl : url = ""
      · refine ⟨s, rfl, ?_⟩
        simp only [processVideoBody, hbucket, if_pos hurl]
        exact htryM _ s
      · by_cases hg : pyStartsWith url "gs://" = true
        · refine ⟨s, rfl, ?_⟩
          simp only [processVideoBody, hbucket, if_neg hurl, if_pos hg, hgs]
          exact htryM _ s
        · refine ⟨(mkstemp s).2, rfl, ?_⟩
          simp only [processVideoBody, hbucket, if_neg hurl, if_neg hg,
            mkstemp, hhttp]
          rw [htryM]
          exact rfl

/-- C2: a record whose identifier matches no blob at any candidate location
yields success = false, an error containing "Video not found" listing all
tried candidates, and processing status set to failed.  AMENDED: the result
dict carries only `error` (with exactly the claimed message) and `videoId`;
there is no `success` key (callers test `'success' in result`), and the
record store is NOT touched on this path — the failed-status update runs
only when an exception propagates, which the not-found return is not
(video.py lines 180-182, main.py lines 531-534).  Proved for both pipeline
copies: the result is the error dict with the full candidate enumeration,
the message starts with "Video not found", and the stored processing
status is unchanged. -/
theorem c2_not_found_behavior (uq : String → String) (env : PipelineEnv)
    (videoId : String) (vd : VideoData) (s : PState)
    (hst : ∀ p, env.storageBlob p = BlobOutcome.notFound)
    (hgs : ∀ b p, env.gsBlob b p = BlobOutcome.notFound)
    (hhttp : ∀ u, env.http u = HttpOutcome.badStatus)
    (hbucket : env.bucket_ok = true) :
    (vpRun uq env videoId vd s).1 =
      ⟨none, some (notFoundMessage (get_possible_paths uq videoId vd)),
       some videoId, none⟩ ∧
    (vpRun uq env videoId vd s).2.status = s.status ∧
    (process_video_main uq env videoId vd s).1 =
      ⟨none, some (notFoundMessage (get_possible_video_paths uq videoId vd)),
       some videoId, none⟩ ∧
    (process_video_main uq env videoId vd s).2.status = s.status ∧
    pyStartsWith (notFoundMessage (get_possible_paths uq videoId vd))
      "Video not found" = true := by
  obtain ⟨s1, hs1, hvp⟩ :=
    vpProcess_not_found uq env videoId vd s hst hgs hhttp
  obtain ⟨s2, hs2, hbody⟩ :=
    processVideoBody_not_found uq env videoId vd s hst hgs hhttp hbucket
  refine ⟨?_, ?_, ?_, ?_, notFoundMessage_startsWith _⟩
  · rw [vpRun, hvp]
  · rw [vpRun, hvp]
    exact (vpCleanup_status s1).trans hs1
  · rw [process_video_main, hbody]
  · rw [process_video_main, hbody]
    exact hs2

/-- World for the C2 counterexample and witness: nothing is anywhere. -/
def notFoundEnv : PipelineEnv :=
  { gsBlob := fun _ _ => .notFound
    storageBlob := fun _ => .notFound
    http := fun _ => .badStatus
    bucket_ok := true
    decode_ok := true
    upload_ok := true
    dims_ok := true
    update_ok := true
    status_update_ok := true }

/-- C2 witness: the amended behavior at the concrete record v2 with no
location fields and an empty store. -/
theorem c2_not_found_witness :
    (vpRun (fun s => s) notFoundEnv "v2" ⟨none, none⟩ initState).1 =
      ⟨none, some (notFoundMessage
        (get_possible_paths (fun s => s) "v2" ⟨none, none⟩)),
       some "v2", none⟩ ∧
    (vpRun (fun s => s) notFoundEnv "v2" ⟨none, none⟩
      initState).2.status = initState.status ∧
    (process_video_main (fun s => s) notFoundEnv "v2" ⟨none, none⟩
      initState).1 =
      ⟨none, some (notFoundMessage
        (get_possible_video_paths (fun s => s) "v2" ⟨none, none⟩)),
       some "v2", none⟩ ∧
    (process_video_main (fun s => s) notFoundEnv "v2" ⟨none, none⟩
      initState).2.status = initState.status ∧
    pyStartsWith (notFoundMessage
      (get_possible_paths (fun s => s) "v2" ⟨none, none⟩))
      "Video not found" = true :=
  c2_not_found_behavior (fun s => s) notFoundEnv "v2" ⟨none, none⟩ initState
    (fun _ => rfl) (fun _ _ => rfl) (fun _ => rfl) rfl

/-- C2 counterexample: at the very input of the claim's scenario, the
result's `success` field is absent (not `false`) and the stored processing
status is not "failed" (it is untouched), in both pipeline copies. -/
theorem c2_counterexample :
    (vpRun (fun s => s) notFoundEnv "v2" ⟨none, none⟩
      initState).1.success ≠ some false ∧
    (vpRun (fun s => s) notFoundEnv "v2" ⟨none, none⟩
      initState).2.status ≠ some "failed" ∧
    (process_video_main (fun s => s) notFoundEnv "v2" ⟨none, none⟩
      initState).1.success ≠ some false ∧
    (process_video_main (fun s => s) notFoundEnv "v2" ⟨none, none⟩
      initState).2.status ≠ some "failed" := by
  refine ⟨by decide, by decide, by decide, by decide⟩

/-! ## Invocation entry points -/

/-- A raised `functions.HttpsError(code, message)`. -/
inductive HttpsErr where
  | https : String → String → HttpsErr
deriving DecidableEq

/-- Embedding of `analyze_screenshot` (functions/main.py lines 148-159):
`imageData` is `request.data.get('imageData')`; a missing or falsy value
raises ValueError, and the `except` branch RAISES
`functions.HttpsError('internal', str(e))` rather than returning.  The
`analyze_image` call is the oracle `analyze`; its exception is converted to
a raised HttpsError the same way. -/
def analyze_screenshot (imageData : Option String)
    (analyze : String → Except String Json) : Except HttpsErr Json :=
  match imageData with
  | none => .error (.https "internal" "No image data provided")
  | some payload =>
      if payload = "" then
        .error (.https "internal" "No image data provided")
      else
        match analyze payload with
        | .ok r => .ok r
        | .error e => .error (.https "internal" e)

/-- Request shape consumed by the HTTP handler `generate_video_thumbnail`
(thumbnail_generator/main.py lines 557-621): the method, the path, and the
`videoPath` field of the parsed JSON body when present. -/
structure HttpRequest where
  method : String
  path : String
  videoPath : Option String

/-- Structured responses the HTTP handler returns: the empty 204 CORS
preflight reply, or a JSON body with a status code. -/
inductive HttpResp where
  | noContent
  | jsonBody : ℕ → HttpResp
deriving DecidableEq

/-- The batch loop of the handler: `process_video` over every video
returned by `get_videos_without_thumbnails` (itself total: its own
`except` returns the empty list). -/
def process_batch (uq : String → String) (env : PipelineEnv) :
    List (String × VideoData) → PState → List PResult × PState
  | [], s => ([], s)
  | (vid, vd) :: rest, s =>
      let step := process_video_main uq env vid vd s
      let further := process_batch uq env rest step.2
      (step.1 :: further.1, further.2)

/-- Embedding of the HTTP entry point `generate_video_thumbnail`
(thumbnail_generator/main.py lines 557-621).  `stem` is the oracle for
`os.path.splitext(os.path.basename(...))[0]`; `init_ok` says whether
`initialize_firebase()` raises; `videos` is what
`get_videos_without_thumbnails()` returns.  Single-video requests answer
200 when the result dict has a `success` key and 500 otherwise; batch
requests always answer 200; the outer `except` answers 500. -/
def generate_video_thumbnail_entry (uq stem : String → String)
    (env : PipelineEnv) (init_ok : Bool) (req : HttpRequest)
    (videos : List (String × VideoData)) (s : PState) : HttpResp × PState :=
  if req.method = "OPTIONS" then (.noContent, s)
  else if req.path = "/_ah/warmup" ∨ req.path = "/health" then
    (.jsonBody 200, s)
  else if init_ok = false then (.jsonBody 500, s)
  else
    match req.videoPath with
    | some vp =>
        let outcome := process_video_main uq env (stem vp) ⟨some vp, none⟩ s
        (.jsonBody (if outcome.1.success.isSome then 200 else 500),
         outcome.2)
    | none =>
        match videos with
        | [] => (.jsonBody 200, s)
        | v :: vs => (.jsonBody 200, (process_batch uq env (v :: vs) s).2)

/-- C8: no exception escapes any top-level entry point; every internal
error is caught at the boundary and a structured result returned.
AMENDED: this holds for the HTTP handler, whose every branch (including the
outer catch-all) returns a structured JSON response with status 200, 204 or
500; but the callable `analyze_screenshot` instead catches internal errors
and RE-RAISES them as `functions.HttpsError('internal', ...)`, so for that
entry point an exception does escape the handler function (the framework,
not the handler, turns it into a response).  Both behaviors are proved
here. -/
theorem c8_entry_boundary :
    (∀ (uq stem : String → String) (env : PipelineEnv) (init_ok : Bool)
      (req : HttpRequest) (videos : List (String × VideoData)) (s : PState),
      (generate_video_thumbnail_entry uq stem env init_ok req videos s).1 =
          HttpResp.noContent ∨
      (generate_video_thumbnail_entry uq stem env init_ok req videos s).1 =
          HttpResp.jsonBody 200 ∨
      (generate_video_thumbnail_entry uq stem env init_ok req videos s).1 =
          HttpResp.jsonBody 500) ∧
    (∀ analyze, analyze_screenshot none analyze =
        Except.error (.https "internal" "No image data provided")) ∧
    (∀ (analyze : String → Except String Json) (payload e : String),
      payload ≠ "" → analyze payload = Except.error e →
      analyze_screenshot (some payload) analyze =
        Except.error (.https "internal" e)) := by
  refine ⟨?_, fun _ => rfl, ?_⟩
  · intro uq stem env init_ok req videos s
    unfold generate_video_thumbnail_entry
    by_cases h1 : req.method = "OPTIONS"
    · rw [if_pos h1]
      exact Or.inl rfl
    · rw [if_neg h1]
      by_cases h2 : req.path = "/_ah/warmup" ∨ req.path = "/health"
      · rw [if_pos h2]
        exact Or.inr (Or.inl rfl)
      · rw [if_neg h2]
        by_cases h3 : init_ok = false
        · rw [if_pos h3]
          exact Or.inr (Or.inr rfl)
        · rw [if_neg h3]
          cases req.videoPath with
          | some vp =>
              by_cases hs : (process_video_main uq env (stem vp)
                  ⟨some vp, none⟩ s).1.success.isSome = true
              · refine Or.inr (Or.inl ?_)
                show HttpResp.jsonBody (if (process_video_main uq env
                    (stem vp) ⟨some vp, none⟩ s).1.success.isSome
                  then 200 else 500) = HttpResp.jsonBody 200
                rw [if_pos hs]
              · refine Or.inr (Or.inr ?_)
                show HttpResp.jsonBody (if (process_video_main uq env
                    (stem vp) ⟨some vp, none⟩ s).1.success.isSome
                  then 200 else 500) = HttpResp.jsonBody 500
                rw [if_neg hs]
          | none =>
              cases videos with
              | nil => exact Or.inr (Or.inl rfl)
              | cons v vs => exact Or.inr (Or.inl rfl)
  · intro analyze payload e hp ha
    rw [analyze_screenshot]
    rw [if_neg hp, ha]

/-- C8 counterexample: a request with no image data makes the
`analyze_screenshot` entry point raise an HttpsError instead of returning a
structured result, refuting the claim that no exception escapes any entry
point. -/
theorem c8_counterexample :
    analyze_screenshot none (fun _ => Except.ok Json.other) =
      Except.error (.https "internal" "No image data provided") := rfl

/-- C8 witness: the hypotheses of the amended theorem's raising clause,
discharged at a concrete failing analysis call. -/
theorem c8_entry_boundary_witness :
    analyze_screenshot (some "img.png")
        (fun _ => Except.error "vision api down") =
      Except.error (.https "internal" "vision api down") :=
  c8_entry_boundary.2.2 (fun _ => Except.error "vision api down")
    "img.png" "vision api down" (by decide) rfl

end ReelAI
